import Mathlib

/-!
Verification of the FormatPacker repository (`FormatPacker.py`, `point_object.py`)
against its natural-language specification.

Modeling conventions:

* Python integers are modeled as `Nat`; every quantity occurring in the claims
  (sizes, periods, frame indices, offsets in bits) is non-negative.  The
  source's `< 0` validation branches are consequently vacuous under this
  representation and are noted where they occur.
* Offsets are stored in bits: the Python constructors multiply byte inputs by 8
  exactly once, and so do the embedded constructors.
* The CP-SAT back end is external to the repository.  The model emitted by
  `FormatPacker._build_model` is embedded as a satisfaction predicate over
  assignments of the decision variables (one `start_unit` value per object and
  one chosen phase per object with phase variables; CP-SAT's exactly-one over
  the phase booleans is rendered as a single chosen index below the period).
  The solver is modeled as returning an assignment satisfying the emitted
  constraints whenever one exists.  CP-SAT's `AddMaxEquality` (`target =
  max(exprs)`) is rendered as "`target` bounds every expression and is attained
  by one of them" — equivalent for a non-empty expression list, and
  unsatisfiable for an empty one (the maximum of the empty set lies below
  every value of `target`), which is what the empty-object input emits.
-/

/-- `PointObject` (point_object.py, lines 14-48).  `Offset` is measured in bits
(the Python constructor converts the byte argument; see `PointObject.make`). -/
structure PointObject where
  Name : String
  Size : Nat
  Period : Nat
  Start_Frame : Option Nat
  Offset : Option Nat
  deriving DecidableEq, Inhabited

/-- `PointObject.__init__` (point_object.py, lines 29-48): the byte `offset`
argument is converted to bits (`offset * 8`); `None` stays `None`. -/
def PointObject.make (name : String) (size period : Nat)
    (start_frame offset : Option Nat) : PointObject :=
  ⟨name, size, period, start_frame, offset.map (fun b => b * 8)⟩

/-- `GroupObjectList` (point_object.py, lines 69-113): group attributes plus the
member list (the Python class subclasses `list`; the members are the list's
elements). -/
structure GroupObjectList where
  Name : String
  Period : Nat
  Start_Frame : Option Nat
  Offset : Option Nat
  members : List PointObject
  deriving DecidableEq, Inhabited

/-- `GroupObjectList.__init__` (point_object.py, lines 93-113): stores the group
attributes (byte offset converted to bits) and overwrites each member's
`Period`, `Start_Frame` and `Offset` with the group's values — every member,
including the non-first ones, receives the group's offset here. -/
def GroupObjectList.init (period : Nat) (points : List PointObject) (name : String)
    (start_frame offset : Option Nat) : GroupObjectList :=
  { Name := name, Period := period, Start_Frame := start_frame,
    Offset := offset.map (fun b => b * 8),
    members := points.map (fun p =>
      { p with Period := period, Start_Frame := start_frame,
               Offset := offset.map (fun b => b * 8) }) }

/-- An element of the `objects` argument of `FormatPacker.__init__`: either a
bare point or a group. -/
inductive PG where
  | pt (p : PointObject)
  | grp (g : GroupObjectList)

/-- The object walk of `FormatPacker.__init__` (FormatPacker.py, lines 110-128):
groups are flattened in order into the point list; each group member gets the
group's `Period` and `Start_Frame`, and the group's `Offset` on the first
member only (`None` on the rest).  Groups are recorded as spans
`(first index, member count)` into the flattened list, mirroring the aliasing
of `self._groups` into `self.objects`. -/
def flattenAux : List PG → List PointObject → List (Nat × Nat) →
    List PointObject × List (Nat × Nat)
  | [], objs, gs => (objs, gs)
  | PG.pt p :: rest, objs, gs => flattenAux rest (objs ++ [p]) gs
  | PG.grp g :: rest, objs, gs =>
      let ms := g.members.enum.map (fun q =>
        { q.2 with Period := g.Period, Start_Frame := g.Start_Frame,
                   Offset := if q.1 = 0 then g.Offset else none })
      flattenAux rest (objs ++ ms) (gs ++ [(objs.length, ms.length)])

/-- `FormatPacker.__init__` object flattening, started from empty accumulators. -/
def flatten (input : List PG) : List PointObject × List (Nat × Nat) :=
  flattenAux input [] []

/-- Right fold of `Nat.gcd`, embedding Python's variadic `math.gcd`. -/
def gcdFold (l : List Nat) (b : Nat) : Nat := l.foldr Nat.gcd b

/-- `UNIT` (FormatPacker.py, lines 138-140):
`gcd(*unique_sizes, *defined_offsets_b, FRAME_SIZE_BITS)`.  The Python code
collects sizes and offsets into sets; deduplication and order are irrelevant to
a gcd, so a fold over the plain lists is used.  `defined_offsets_b` keeps an
offset only when it is truthy, so an offset of `0` is excluded — hence the
`w != 0` filter. -/
def unitOf (objs : List PointObject) (fsb : Nat) : Nat :=
  gcdFold (objs.map PointObject.Size ++
    (objs.filterMap PointObject.Offset).filter (fun w => w != 0)) fsb

/-- `CAP = FRAME_SIZE_BITS // UNIT` (FormatPacker.py, line 143). -/
def capOf (objs : List PointObject) (fsb : Nat) : Nat := fsb / unitOf objs fsb

/-- The offset part of `FormatPacker._validate_objects` (FormatPacker.py,
line 186): `offset < 0 or (offset + size > FRAME_SIZE_BITS)`; the `< 0`
disjunct is vacuous over `Nat`. -/
def validateOffset (fsb : Nat) (o : PointObject) : Except String Unit :=
  match o.Offset with
  | some w =>
      if fsb < w + o.Size then
        Except.error ("Invalid Offset: Object " ++ o.Name ++
          " at this offset would overflow the frame.")
      else Except.ok ()
  | none => Except.ok ()

/-- The per-object body of `FormatPacker._validate_objects` (FormatPacker.py,
lines 175-187): the `Start_Frame` range check (`start_frame < 0 or
start_frame > NUM_FRAMES-1`; the `< 0` disjunct is vacuous over `Nat`) runs
first, then the offset check. -/
def validatePoint (numFrames fsb : Nat) (o : PointObject) : Except String Unit :=
  match o.Start_Frame with
  | some sf =>
      if numFrames - 1 < sf then
        Except.error ("Invalid Start_Frame: Object " ++ o.Name ++
          " has invalid Start_Frame; must be between 0 and NUM_FRAMES-1.")
      else validateOffset fsb o
  | none => validateOffset fsb o

/-- `FormatPacker._validate_objects` (FormatPacker.py, lines 173-187): raises on
the first violating object.  Note: this method is defined in the source but is
never invoked — neither `pack()` nor `__init__` calls it. -/
def validateObjects (numFrames fsb : Nat) : List PointObject → Except String Unit
  | [] => Except.ok ()
  | o :: rest =>
      match validatePoint numFrames fsb o with
      | Except.ok _ => validateObjects numFrames fsb rest
      | Except.error e => Except.error e

/-- An object owns phase variables exactly when `Start_Frame is None and
Period > 1` (FormatPacker.py, line 203). -/
def hasPhaseVars (o : PointObject) : Bool :=
  o.Start_Frame.isNone && decide (1 < o.Period)

/-- Frame occupancy, as computed identically by the interval emission of
`_build_model` (FormatPacker.py, lines 230-238) and by the result materializer
`_to_dataframes` (lines 341-346, 363-368, 386-391): with phase variables the
object occupies the frames of its chosen phase residue; otherwise
`sf = Start_Frame or 0` and the object occupies frames
`f >= sf` with `(f - sf) % Period == 0`.  (Python's `x or 0` maps both `None`
and `0` to `0`, which is `Option.getD _ 0` over `Nat`.) -/
def inFrame (o : PointObject) (phase f : Nat) : Bool :=
  if hasPhaseVars o then f % o.Period == phase
  else
    let sf := o.Start_Frame.getD 0
    decide (sf ≤ f) && ((f - sf) % o.Period == 0)

/-- Number of frames of `[0, N)` in which an object occurs, per `inFrame`. -/
def occCount (o : PointObject) (phase N : Nat) : Nat :=
  ((List.range N).filter (inFrame o phase)).length

/-- `total_util` (FormatPacker.py, line 242):
`sum(obj.Size * (NUM_FRAMES // obj.Period) for obj in self.objects)`. -/
def totalUtil (objs : List PointObject) (N : Nat) : Nat :=
  (objs.map (fun o => o.Size * (N / o.Period))).sum

/-- Total number of bits the memory-map materializer actually fills across the
whole schedule (FormatPacker.py, lines 361-372: `size` cells per frame of
occurrence): the sum over objects of `Size * occCount`. -/
def placedBits (objs : List PointObject) (ph : Nat → Nat) (N : Nat) : Nat :=
  (objs.enum.map (fun q => q.2.Size * occCount q.2 (ph q.1) N)).sum

/-- Default object used by the total index accessor. -/
def dummyPoint : PointObject := ⟨"", 0, 1, none, none⟩

/-- Total accessor into the object list (all uses are guarded by bounds). -/
def objAt (objs : List PointObject) (i : Nat) : PointObject :=
  objs.getD i dummyPoint

/-- Domains of the `start_unit` variables (FormatPacker.py, line 196):
`NewIntVar(0, CAP - size // UNIT)`, i.e. `su + size // UNIT ≤ CAP`. -/
def domainOK (objs : List PointObject) (unit cap : Nat) (su : Nat → Nat) : Prop :=
  ∀ i < objs.length, su i + (objAt objs i).Size / unit ≤ cap

/-- Offset pinning (FormatPacker.py, lines 199-200):
`start_unit == Offset // UNIT` whenever `Offset` is defined. -/
def pinOK (objs : List PointObject) (unit : Nat) (su : Nat → Nat) : Prop :=
  ∀ i < objs.length, ∀ w ∈ (objAt objs i).Offset, su i = w / unit

/-- `AddExactlyOne` over the phase booleans (FormatPacker.py, lines 203-205),
rendered as: the chosen phase index is below the period. -/
def phaseOK (objs : List PointObject) (ph : Nat → Nat) : Prop :=
  ∀ i < objs.length, hasPhaseVars (objAt objs i) = true → ph i < (objAt objs i).Period

/-- Group constraints (FormatPacker.py, lines 209-219), for each consecutive
member pair: when both own phase variables, the pairwise boolean equations
together with exactly-one force an equal chosen phase; and always the
contiguity equation `start_unit[i+1] = start_unit[i] + size[i] // UNIT`. -/
def groupOK (objs : List PointObject) (groups : List (Nat × Nat)) (unit : Nat)
    (su ph : Nat → Nat) : Prop :=
  ∀ g ∈ groups, ∀ j < g.2 - 1,
    ((hasPhaseVars (objAt objs (g.1 + j)) = true ∧
        hasPhaseVars (objAt objs (g.1 + j + 1)) = true) →
      ph (g.1 + j + 1) = ph (g.1 + j)) ∧
    su (g.1 + j + 1) = su (g.1 + j) + (objAt objs (g.1 + j)).Size / unit

/-- `AddNoOverlap` per frame (FormatPacker.py, lines 221-239): the intervals of
the objects present in a frame (mandatory for pinned/period-1 objects, optional
gated by the chosen phase otherwise — exactly `inFrame`) are pairwise
disjoint. -/
def noOverlapOK (objs : List PointObject) (N unit : Nat) (su ph : Nat → Nat) : Prop :=
  ∀ f < N, ∀ i < objs.length, ∀ j < objs.length,
    (i ≠ j ∧ inFrame (objAt objs i) (ph i) f = true ∧
      inFrame (objAt objs j) (ph j) f = true) →
    su i + (objAt objs i).Size / unit ≤ su j ∨
    su j + (objAt objs j).Size / unit ≤ su i

/-- Satisfaction of every constraint `_build_model` emits over the decision
variables (FormatPacker.py, lines 191-239). -/
def ModelSat (objs : List PointObject) (groups : List (Nat × Nat))
    (fsb N : Nat) (su ph : Nat → Nat) : Prop :=
  domainOK objs (unitOf objs fsb) (capOf objs fsb) su ∧
  pinOK objs (unitOf objs fsb) su ∧
  phaseOK objs ph ∧
  groupOK objs groups (unitOf objs fsb) su ph ∧
  noOverlapOK objs N (unitOf objs fsb) su ph

/-- `end_unit[j] = start_unit[j] + size[j] // UNIT` (FormatPacker.py,
lines 247-251). -/
def endUnits (objs : List PointObject) (unit : Nat) (su : Nat → Nat) : List Nat :=
  objs.enum.map (fun q => su q.1 + q.2.Size / unit)

/-- `AddMaxEquality(max_end, end_unit)` (FormatPacker.py, lines 253-255):
`target = max(exprs)`, rendered as "`target` is an upper bound of the
expressions and is attained by one of them".  For a non-empty list over `Nat`
this is exactly `target = max(exprs)`; for the empty list it is unsatisfiable,
matching CP-SAT's maximum of the empty set, which no `max_end ∈ [0, CAP]`
equals. -/
def maxEqSat (maxEnd : Nat) (ends : List Nat) : Prop :=
  (∀ e ∈ ends, e ≤ maxEnd) ∧ maxEnd ∈ ends

/-- `ModelSat` together with the stage-2 auxiliaries (FormatPacker.py,
lines 245-255): the `end_unit` variables lie in `[0, CAP]` and `max_end` equals
their maximum. -/
def FullModelSat (objs : List PointObject) (groups : List (Nat × Nat))
    (fsb N : Nat) (su ph : Nat → Nat) (maxEnd : Nat) : Prop :=
  ModelSat objs groups fsb N su ph ∧
  (∀ e ∈ endUnits objs (unitOf objs fsb) su, e ≤ capOf objs fsb) ∧
  maxEnd ≤ capOf objs fsb ∧
  maxEqSat maxEnd (endUnits objs (unitOf objs fsb) su)

/-- Insertion step of a stable sort by a natural-number key: the element is
placed before the first entry whose key is not smaller, so later equal-key
entries stay behind it. -/
def insertByKey (key : α → Nat) (x : α) : List α → List α
  | [] => [x]
  | y :: ys => if key y < key x then y :: insertByKey key x ys else x :: y :: ys

/-- Stable sort by a natural-number key, embedding Python's stable `sort` /
`sorted(.., key=..)`. -/
def sortByKey (key : α → Nat) : List α → List α
  | [] => []
  | x :: xs => insertByKey key x (sortByKey key xs)

/-- The `entries` list of `_to_dataframes` before sorting (FormatPacker.py,
lines 377-394): the `(name, start_bit)` pairs of the objects present in the
frame, in object order. -/
def rawEntries (objs : List PointObject) (su ph : Nat → Nat) (unit f : Nat) :
    List (String × Nat) :=
  (objs.enum.filter (fun q => inFrame q.2 (ph q.1) f)).map
    (fun q => (q.2.Name, su q.1 * unit))

/-- The per-frame entry list of `_to_dataframes` (FormatPacker.py,
lines 377-398): the raw entries sorted stably by start bit
(`entries.sort(key=lambda x: x[1])`). -/
def entriesFor (objs : List PointObject) (su ph : Nat → Nat) (unit f : Nat) :
    List (String × Nat) :=
  sortByKey (fun e => e.2) (rawEntries objs su ph unit f)

/-- `self.framesummary` (FormatPacker.py, line 398): one entry list per frame. -/
def frameSummary (objs : List PointObject) (su ph : Nat → Nat) (unit N : Nat) :
    List (List (String × Nat)) :=
  (List.range N).map (entriesFor objs su ph unit)

/-- A column of the `FrameOrder` table (FormatPacker.py, lines 399-401): the
names present in the frame, in ascending start-bit order. -/
def frameOrderNames (objs : List PointObject) (su ph : Nat → Nat) (unit f : Nat) :
    List String :=
  (entriesFor objs su ph unit f).map Prod.fst

/-- One step of the `first_bits` dictionary update (FormatPacker.py,
lines 404-410): on a known name take the minimum bit in place, otherwise append
at the end (Python dicts preserve insertion order). -/
def updateMin (acc : List (String × Nat)) (e : String × Nat) : List (String × Nat) :=
  match acc with
  | [] => [e]
  | a :: as' => if a.1 = e.1 then (a.1, min a.2 e.2) :: as' else a :: updateMin as' e

/-- The `first_bits` dictionary (FormatPacker.py, lines 404-410), as its
insertion-ordered association list: frames are walked in order, each frame's
entries in their (start-bit sorted) order. -/
def firstBits (frames : List (List (String × Nat))) : List (String × Nat) :=
  frames.foldl (fun acc fr => fr.foldl updateMin acc) []

/-- `object_order = sorted(first_bits, key=lambda x: first_bits[x])`
(FormatPacker.py, line 411), kept with the sort keys. -/
def objectOrderRows (frames : List (List (String × Nat))) : List (String × Nat) :=
  sortByKey (fun e => e.2) (firstBits frames)

/-- The row index of the `FrameSummary` table (FormatPacker.py, lines 411-413). -/
def objectOrder (frames : List (List (String × Nat))) : List String :=
  (objectOrderRows frames).map Prod.fst

/-- First frame in which a name appears, per the materialized frame entry
lists. -/
def firstFrameOf (frames : List (List (String × Nat))) (name : String) : Nat :=
  frames.findIdx (fun fr => fr.any (fun e => e.1 == name))

/-- Start bit of a name within its first appearing frame. -/
def bitInFirstFrame (frames : List (List (String × Nat))) (name : String) : Nat :=
  (((frames.getD (firstFrameOf frames name) []).find?
    (fun e => e.1 == name)).map Prod.snd).getD 0

/-- Claim C4 as stated: the `FrameSummary` rows are ordered primarily by first
appearing frame and secondarily by the start bit within it. -/
def C4ClaimHolds (frames : List (List (String × Nat))) : Prop :=
  List.Pairwise (fun a b =>
    firstFrameOf frames a < firstFrameOf frames b ∨
    (firstFrameOf frames a = firstFrameOf frames b ∧
      bitInFirstFrame frames a ≤ bitInFirstFrame frames b))
    (objectOrder frames)

/-- Position of a string in a list (length when absent; all uses are guarded by
membership). -/
def posOf (s : String) : List String → Nat
  | [] => 0
  | t :: ts => if t = s then 0 else posOf s ts + 1

/-! Decidability of the model-satisfaction predicates, so that concrete
instances can be settled by `decide`. -/

instance decidableImp (p q : Prop) [dp : Decidable p] [dq : Decidable q] :
    Decidable (p → q) :=
  match dp with
  | Decidable.isTrue hp =>
      match dq with
      | Decidable.isTrue hq => Decidable.isTrue fun _ => hq
      | Decidable.isFalse hq => Decidable.isFalse fun h => hq (h hp)
  | Decidable.isFalse hp => Decidable.isTrue fun h => absurd h hp

instance (objs : List PointObject) (unit cap : Nat) (su : Nat → Nat) :
    Decidable (domainOK objs unit cap su) := by
  unfold domainOK; infer_instance

instance (objs : List PointObject) (unit : Nat) (su : Nat → Nat) :
    Decidable (pinOK objs unit su) := by
  unfold pinOK; infer_instance

instance (objs : List PointObject) (ph : Nat → Nat) :
    Decidable (phaseOK objs ph) := by
  unfold phaseOK; infer_instance

instance (objs : List PointObject) (groups : List (Nat × Nat)) (unit : Nat)
    (su ph : Nat → Nat) : Decidable (groupOK objs groups unit su ph) := by
  unfold groupOK; infer_instance

instance (objs : List PointObject) (N unit : Nat) (su ph : Nat → Nat) :
    Decidable (noOverlapOK objs N unit su ph) := by
  unfold noOverlapOK
  refine @Nat.decidableBallLT N _ (fun f hf => ?_)
  refine @Nat.decidableBallLT _ _ (fun i hi => ?_)
  refine @Nat.decidableBallLT _ _ (fun j hj => ?_)
  exact decidableImp _ _

instance (objs : List PointObject) (groups : List (Nat × Nat)) (fsb N : Nat)
    (su ph : Nat → Nat) : Decidable (ModelSat objs groups fsb N su ph) := by
  unfold ModelSat; infer_instance

instance (maxEnd : Nat) (ends : List Nat) : Decidable (maxEqSat maxEnd ends) := by
  unfold maxEqSat; infer_instance

instance (objs : List PointObject) (groups : List (Nat × Nat)) (fsb N : Nat)
    (su ph : Nat → Nat) (maxEnd : Nat) :
    Decidable (FullModelSat objs groups fsb N su ph maxEnd) := by
  unfold FullModelSat; infer_instance

instance (frames : List (List (String × Nat))) : Decidable (C4ClaimHolds frames) := by
  unfold C4ClaimHolds; infer_instance

/-! ### Divisibility of `UNIT` -/

lemma gcdFold_dvd_mem {l : List Nat} {b x : Nat} (hx : x ∈ l) : gcdFold l b ∣ x := by
  induction l with
  | nil => cases hx
  | cons a t ih =>
      rcases List.mem_cons.mp hx with h | h
      · subst h; exact Nat.gcd_dvd_left _ _
      · exact (Nat.gcd_dvd_right a (gcdFold t b)).trans (ih h)

lemma gcdFold_dvd_base (l : List Nat) (b : Nat) : gcdFold l b ∣ b := by
  induction l with
  | nil => exact Nat.dvd_refl b
  | cons a t ih => exact (Nat.gcd_dvd_right a (gcdFold t b)).trans ih

/-- `UNIT` divides every object size: the sizes all enter the gcd. -/
lemma unitOf_dvd_size {objs : List PointObject} {o : PointObject} (ho : o ∈ objs)
    (fsb : Nat) : unitOf objs fsb ∣ o.Size :=
  gcdFold_dvd_mem (List.mem_append_left _ (List.mem_map_of_mem PointObject.Size ho))

/-- `UNIT` divides every defined offset: a non-zero offset enters the gcd, and
everything divides an offset of `0` (which Python's truthiness test excludes
from the gcd arguments). -/
lemma unitOf_dvd_offset {objs : List PointObject} {o : PointObject} {w : Nat}
    (ho : o ∈ objs) (hw : o.Offset = some w) (fsb : Nat) : unitOf objs fsb ∣ w := by
  rcases Nat.eq_zero_or_pos w with h0 | hpos
  · subst h0; exact Nat.dvd_zero _
  · refine gcdFold_dvd_mem (List.mem_append_right _ ?_)
    refine List.mem_filter.mpr ⟨?_, by simp [Nat.pos_iff_ne_zero.mp hpos]⟩
    exact List.mem_filterMap.mpr ⟨o, ho, hw⟩

/-! ### Counting occurrence frames -/

lemma div_add_pred_of_dvd {p d : Nat} (hp : 0 < p) (hd : p ∣ d) :
    (d + (p - 1)) / p = d / p := by
  obtain ⟨c, rfl⟩ := hd
  have h1 : (p - 1) / p = 0 := Nat.div_eq_of_lt (by omega)
  rw [Nat.mul_add_div hp, h1, Nat.mul_div_cancel_left c hp]
  omega

lemma div_add_pred_of_not_dvd {p d : Nat} (hp : 0 < p) (hd : ¬ p ∣ d) :
    (d + (p - 1)) / p = d / p + 1 := by
  have hdm := Nat.div_add_mod d p
  have hm1 : 1 ≤ d % p :=
    Nat.pos_of_ne_zero (fun h => hd (Nat.dvd_of_mod_eq_zero h))
  have hm2 : d % p < p := Nat.mod_lt _ hp
  have key : d + (p - 1) = p * (d / p + 1) + (d % p - 1) := by
    rw [Nat.mul_succ]; omega
  have hz : (d % p - 1) / p = 0 := Nat.div_eq_of_lt (by omega)
  rw [key, Nat.mul_add_div hp, hz]

/-- The number of `f ∈ [0, N)` with `f ≥ sf` and `(f - sf) % p = 0` is
`⌈(N - sf) / p⌉`, written with truncated subtraction so that the formula also
covers `sf ≥ N` (where it is `0`). -/
lemma count_sf (sf p : Nat) (hp : 0 < p) (N : Nat) :
    ((List.range N).filter
        (fun f => decide (sf ≤ f) && ((f - sf) % p == 0))).length
      = (N - sf + (p - 1)) / p := by
  induction N with
  | zero =>
      have h1 : (p - 1) / p = 0 := Nat.div_eq_of_lt (Nat.sub_lt hp Nat.one_pos)
      simp [h1]
  | succ n ih =>
      rw [List.range_succ, List.filter_append, List.length_append, ih]
      by_cases hsf : sf ≤ n
      · have hnsf : n + 1 - sf + (p - 1) = (n - sf) + p := by omega
        rw [hnsf, Nat.add_div_right _ hp]
        by_cases hdvd : p ∣ (n - sf)
        · have hmod : (n - sf) % p = 0 := by
            obtain ⟨c, hc⟩ := hdvd
            rw [hc]
            exact Nat.mul_mod_right p c
          have hfil : List.filter
              (fun f => decide (sf ≤ f) && ((f - sf) % p == 0)) [n] = [n] := by
            simp [hsf, hmod]
          rw [hfil, div_add_pred_of_dvd hp hdvd]
          simp
        · have hmod : (n - sf) % p ≠ 0 :=
            fun h => hdvd (Nat.dvd_of_mod_eq_zero h)
          have hfil : List.filter
              (fun f => decide (sf ≤ f) && ((f - sf) % p == 0)) [n] = [] := by
            simp [hsf, hmod]
          rw [hfil, div_add_pred_of_not_dvd hp hdvd]
          simp
      · have hfil : List.filter
            (fun f => decide (sf ≤ f) && ((f - sf) % p == 0)) [n] = [] := by
          simp [hsf]
        have h1 : n + 1 - sf = n - sf := by omega
        rw [hfil, h1]
        simp

/-- For a residue `s < p`, membership of the residue class coincides with the
shifted-divisibility form used by the materializer. -/
lemma mod_eq_iff_shifted {p s f : Nat} (_hp : 0 < p) (hs : s < p) :
    f % p = s ↔ (s ≤ f ∧ (f - s) % p = 0) := by
  constructor
  · intro h
    have hle : s ≤ f := h ▸ Nat.mod_le f p
    refine ⟨hle, ?_⟩
    have hdm := Nat.div_add_mod f p
    have hfs : f - s = p * (f / p) := by omega
    rw [hfs]
    exact Nat.mul_mod_right p (f / p)
  · rintro ⟨hle, hmod⟩
    obtain ⟨k, hk⟩ := Nat.dvd_of_mod_eq_zero hmod
    have hf : f = s + p * k := by omega
    subst hf
    rw [Nat.add_mul_mod_self_left]
    exact Nat.mod_eq_of_lt hs

/-- Occurrence count of an object without phase variables. -/
lemma occCount_of_noPhase {o : PointObject} (hpv : hasPhaseVars o = false)
    (phase N : Nat) (hp : 0 < o.Period) :
    occCount o phase N =
      (N - o.Start_Frame.getD 0 + (o.Period - 1)) / o.Period := by
  unfold occCount
  have hfn : inFrame o phase = fun f =>
      decide (o.Start_Frame.getD 0 ≤ f) &&
        ((f - o.Start_Frame.getD 0) % o.Period == 0) := by
    funext f; simp [inFrame, hpv]
  rw [hfn, count_sf _ _ hp]

/-- Occurrence count of an object with phase variables and a chosen phase below
the period. -/
lemma occCount_of_phase {o : PointObject} (hpv : hasPhaseVars o = true)
    {phase : Nat} (N : Nat) (hp : 0 < o.Period) (hs : phase < o.Period) :
    occCount o phase N = (N - phase + (o.Period - 1)) / o.Period := by
  unfold occCount
  have hfn : inFrame o phase = fun f =>
      decide (phase ≤ f) && ((f - phase) % o.Period == 0) := by
    funext f
    simp only [inFrame, hpv, if_true]
    rw [Bool.eq_iff_iff]
    simp only [beq_iff_eq, Bool.and_eq_true, decide_eq_true_eq]
    exact mod_eq_iff_shifted hp hs
  rw [hfn, count_sf _ _ hp]

/-! ### List-access helpers -/

lemma getD_eq_getElem {α : Type} (l : List α) {i : Nat} (hi : i < l.length) (d : α) :
    l.getD i d = l[i] := by
  rw [List.getD_eq_getElem?_getD, List.getElem?_eq_getElem hi]; rfl

lemma objAt_eq_getElem {objs : List PointObject} {i : Nat} (hi : i < objs.length) :
    objAt objs i = objs[i] := getD_eq_getElem objs hi dummyPoint

lemma objAt_mem {objs : List PointObject} {i : Nat} (hi : i < objs.length) :
    objAt objs i ∈ objs := by
  rw [objAt_eq_getElem hi]
  exact List.getElem_mem hi

lemma getD_map_of_lt {α β : Type} (f : α → β) (l : List α) (d : β) (d' : α) {i : Nat}
    (hi : i < l.length) : (l.map f).getD i d = f (l.getD i d') := by
  rw [List.getD_eq_getElem?_getD, List.getElem?_map, List.getElem?_eq_getElem hi,
    getD_eq_getElem l hi d']
  rfl

lemma getD_enum_map_of_lt {α β : Type} (f : Nat × α → β) (l : List α) (d : β) (d' : α)
    {i : Nat} (hi : i < l.length) :
    (l.enum.map f).getD i d = f (i, l.getD i d') := by
  have he : l.enum[i]? = l[i]?.map (fun a => (i, a)) := by simp [List.enum]
  rw [List.getD_eq_getElem?_getD, List.getElem?_map, he, List.getElem?_eq_getElem hi,
    getD_eq_getElem l hi d']
  rfl

/-- Member `i` of a freshly constructed group: the original point with
`Period`, `Start_Frame` and `Offset` overwritten by the group's values. -/
lemma groupInit_member (period : Nat) (points : List PointObject) (name : String)
    (start_frame offset : Option Nat) {i : Nat} (hi : i < points.length) :
    (GroupObjectList.init period points name start_frame offset).members.getD i dummyPoint
      = { points.getD i dummyPoint with
          Period := period, Start_Frame := start_frame,
          Offset := offset.map (fun b => b * 8) } := by
  unfold GroupObjectList.init
  exact getD_map_of_lt _ points dummyPoint dummyPoint hi

/-- Flattening a single-group input yields the group members (offset kept on the
first member only) and one span starting at index `0`. -/
lemma flatten_single_grp (g : GroupObjectList) :
    flatten [PG.grp g] =
      (g.members.enum.map (fun q =>
        { q.2 with Period := g.Period, Start_Frame := g.Start_Frame,
                   Offset := if q.1 = 0 then g.Offset else none }),
       [(0, g.members.length)]) := by
  simp [flatten, flattenAux]

/-! ### Claim C10 -/

/-- C10: constructing a `GroupObjectList` immediately overwrites exactly the
`Period`, `Start_Frame` and `Offset` fields of each member with the group's
values (the offset becoming the group's byte offset times 8, or `None` when the
group has none), leaving `Name` and `Size` unchanged — before any packer exists. -/
theorem C10_group_construction_mutates_members
    (period : Nat) (points : List PointObject) (name : String)
    (start_frame offset : Option Nat) {i : Nat} (hi : i < points.length) :
    ((GroupObjectList.init period points name start_frame offset).members.getD i
        dummyPoint).Name = (points.getD i dummyPoint).Name ∧
    ((GroupObjectList.init period points name start_frame offset).members.getD i
        dummyPoint).Size = (points.getD i dummyPoint).Size ∧
    ((GroupObjectList.init period points name start_frame offset).members.getD i
        dummyPoint).Period = period ∧
    ((GroupObjectList.init period points name start_frame offset).members.getD i
        dummyPoint).Start_Frame = start_frame ∧
    ((GroupObjectList.init period points name start_frame offset).members.getD i
        dummyPoint).Offset = offset.map (fun b => b * 8) := by
  rw [groupInit_member period points name start_frame offset hi]
  exact ⟨rfl, rfl, rfl, rfl, rfl⟩

/-- Witness for C10 at a concrete group. -/
theorem C10_witness :
    ((GroupObjectList.init 4 [⟨"P1", 8, 2, some 3, some 24⟩] "g" (some 1)
        (some 2)).members.getD 0 dummyPoint).Name = "P1" ∧
    ((GroupObjectList.init 4 [⟨"P1", 8, 2, some 3, some 24⟩] "g" (some 1)
        (some 2)).members.getD 0 dummyPoint).Size = 8 ∧
    ((GroupObjectList.init 4 [⟨"P1", 8, 2, some 3, some 24⟩] "g" (some 1)
        (some 2)).members.getD 0 dummyPoint).Period = 4 ∧
    ((GroupObjectList.init 4 [⟨"P1", 8, 2, some 3, some 24⟩] "g" (some 1)
        (some 2)).members.getD 0 dummyPoint).Start_Frame = some 1 ∧
    ((GroupObjectList.init 4 [⟨"P1", 8, 2, some 3, some 24⟩] "g" (some 1)
        (some 2)).members.getD 0 dummyPoint).Offset = (some 2).map (fun b => b * 8) :=
  C10_group_construction_mutates_members 4 [⟨"P1", 8, 2, some 3, some 24⟩] "g"
    (some 1) (some 2) (by decide)

/-! ### Claim C5 -/

/-- C5 counterexample: after group construction alone, the second member's
offset is **not** blanked — it carries the group's offset in bits (`some 8` for
a byte offset of `1`), contradicting the claim that the offset is `None` on
every member except the first right after group construction. -/
theorem C5_counterexample :
    ((GroupObjectList.init 4 [⟨"P1", 8, 2, some 3, some 24⟩, ⟨"P2", 16, 8, none, some 0⟩]
        "g" none (some 1)).members.getD 1 dummyPoint).Offset = some 8 ∧
    ((GroupObjectList.init 4 [⟨"P1", 8, 2, some 3, some 24⟩, ⟨"P2", 16, 8, none, some 0⟩]
        "g" none (some 1)).members.getD 1 dummyPoint).Offset ≠ none := by
  exact ⟨rfl, by decide⟩

/-- C5 (amended): group construction assigns the group's `Period`,
`Start_Frame` and `Offset` (in bits) to **every** member; the blanking of the
offset on all members except the first happens later, in `FormatPacker.__init__`
when the group is flattened into the packer's object list. -/
theorem C5_amended_blanking_happens_in_packer
    (period : Nat) (points : List PointObject) (name : String)
    (start_frame offset : Option Nat) {i : Nat} (hi : i < points.length) :
    (((GroupObjectList.init period points name start_frame offset).members.getD i
        dummyPoint).Period = period ∧
      ((GroupObjectList.init period points name start_frame offset).members.getD i
        dummyPoint).Start_Frame = start_frame ∧
      ((GroupObjectList.init period points name start_frame offset).members.getD i
        dummyPoint).Offset = offset.map (fun b => b * 8)) ∧
    ((objAt (flatten [PG.grp (GroupObjectList.init period points name start_frame
        offset)]).1 i).Period = period ∧
      (objAt (flatten [PG.grp (GroupObjectList.init period points name start_frame
        offset)]).1 i).Start_Frame = start_frame ∧
      (objAt (flatten [PG.grp (GroupObjectList.init period points name start_frame
        offset)]).1 i).Offset
        = if i = 0 then offset.map (fun b => b * 8) else none) := by
  constructor
  · rw [groupInit_member period points name start_frame offset hi]
    exact ⟨rfl, rfl, rfl⟩
  · rw [flatten_single_grp]
    have hlen : i < (GroupObjectList.init period points name start_frame
        offset).members.length := by
      unfold GroupObjectList.init
      simpa using hi
    unfold objAt
    rw [getD_enum_map_of_lt _ _ dummyPoint dummyPoint hlen]
    exact ⟨rfl, rfl, rfl⟩

/-- Witness for the amended C5 at a concrete two-member group with a byte
offset of `1`. -/
theorem C5_amended_witness :
    (((GroupObjectList.init 4 [⟨"P1", 8, 2, some 3, some 24⟩, ⟨"P2", 16, 8, none, some 0⟩]
        "g" none (some 1)).members.getD 1 dummyPoint).Period = 4 ∧
      ((GroupObjectList.init 4 [⟨"P1", 8, 2, some 3, some 24⟩, ⟨"P2", 16, 8, none, some 0⟩]
        "g" none (some 1)).members.getD 1 dummyPoint).Start_Frame = none ∧
      ((GroupObjectList.init 4 [⟨"P1", 8, 2, some 3, some 24⟩, ⟨"P2", 16, 8, none, some 0⟩]
        "g" none (some 1)).members.getD 1 dummyPoint).Offset = (some 1).map (fun b => b * 8)) ∧
    ((objAt (flatten [PG.grp (GroupObjectList.init 4
        [⟨"P1", 8, 2, some 3, some 24⟩, ⟨"P2", 16, 8, none, some 0⟩]
        "g" none (some 1))]).1 1).Period = 4 ∧
      (objAt (flatten [PG.grp (GroupObjectList.init 4
        [⟨"P1", 8, 2, some 3, some 24⟩, ⟨"P2", 16, 8, none, some 0⟩]
        "g" none (some 1))]).1 1).Start_Frame = none ∧
      (objAt (flatten [PG.grp (GroupObjectList.init 4
        [⟨"P1", 8, 2, some 3, some 24⟩, ⟨"P2", 16, 8, none, some 0⟩]
        "g" none (some 1))]).1 1).Offset
        = if 1 = 0 then (some 1).map (fun b => b * 8) else none) :=
  C5_amended_blanking_happens_in_packer 4
    [⟨"P1", 8, 2, some 3, some 24⟩, ⟨"P2", 16, 8, none, some 0⟩] "g" none (some 1)
    (by decide)

/-! ### Claim C8 -/

/-- C8: `UNIT` divides every defined offset (non-zero offsets enter the gcd;
`UNIT ∣ 0` trivially), so the pin constraint `start_unit = Offset // UNIT`
loses nothing: in any assignment satisfying the pins, the reported start bit
`start_unit * UNIT` equals the pinned offset exactly (and the start bit is
frame-independent, so this holds in every frame of occurrence). -/
theorem C8_pinned_offset_exact (objs : List PointObject) (fsb : Nat)
    (su : Nat → Nat) (hpin : pinOK objs (unitOf objs fsb) su)
    (i : Nat) (hi : i < objs.length) (w : Nat)
    (hw : (objAt objs i).Offset = some w) :
    unitOf objs fsb ∣ w ∧ su i * unitOf objs fsb = w := by
  have hdvd : unitOf objs fsb ∣ w := unitOf_dvd_offset (objAt_mem hi) hw fsb
  refine ⟨hdvd, ?_⟩
  have hsu : su i = w / unitOf objs fsb := by
    refine hpin i hi w ?_
    rw [hw]; rfl
  rw [hsu, Nat.div_mul_cancel hdvd]

/-- Witness for C8: one object pinned at byte offset 2 (16 bits), `UNIT = 8`. -/
theorem C8_witness :
    pinOK [⟨"A", 8, 1, some 0, some 16⟩] (unitOf [⟨"A", 8, 1, some 0, some 16⟩] 128)
        (fun _ => 2) ∧
    unitOf [⟨"A", 8, 1, some 0, some 16⟩] 128 ∣ 16 ∧
    (fun _ : Nat => 2) 0 * unitOf [⟨"A", 8, 1, some 0, some 16⟩] 128 = 16 :=
  ⟨by decide,
    C8_pinned_offset_exact [⟨"A", 8, 1, some 0, some 16⟩] 128 (fun _ => 2)
      (by decide) 0 (by decide) 16 rfl⟩

/-! ### Claim C6 -/

/-- C6 counterexample: with an empty object list, `UNIT` does fall back to
`FRAME_SIZE_BITS` and `CAP = 1` — but `pack()` does not complete.
`_build_model` still emits `AddMaxEquality(max_end, [])`
(FormatPacker.py, line 255), whose `target = max(∅)` constraint no assignment
satisfies (the maximum of the empty set lies below every `max_end ∈ [0, CAP]`),
so at the concrete input `frame_size_bits = 16`, `num_frames = 4` the emitted
model has no satisfying assignment at all and the stage-1 solve cannot yield
the claimed trivial feasible solution. -/
theorem C6_counterexample :
    unitOf [] 16 = 16 ∧
    capOf [] 16 = 1 ∧
    ¬ ∃ su ph : Nat → Nat, ∃ maxEnd : Nat, FullModelSat [] [] 16 4 su ph maxEnd := by
  refine ⟨rfl, rfl, ?_⟩
  rintro ⟨su, ph, maxEnd, -, -, -, -, hmem⟩
  simp [endUnits] at hmem

/-- C6 (amended): for an empty objects list the packer computes
`UNIT = frame_size_bits` and `CAP = 1` as claimed, but `pack()` does **not**
complete: `_build_model` emits `AddMaxEquality(max_end, [])`, whose
`target = max(∅)` constraint is unsatisfiable, so the stage-1 solve cannot
return a feasible assignment and `pack()` raises the stage-1
`FramePackingError` instead of yielding a trivial feasible solution. -/
theorem C6_amended_empty_objects_stage1_fails (frame_size N : Nat)
    (hfs : 0 < frame_size) :
    unitOf [] (frame_size * 8) = frame_size * 8 ∧
    capOf [] (frame_size * 8) = 1 ∧
    ∀ su ph : Nat → Nat, ∀ maxEnd : Nat,
      ¬ FullModelSat [] [] (frame_size * 8) N su ph maxEnd := by
  have hunit : unitOf [] (frame_size * 8) = frame_size * 8 := rfl
  have hcap : capOf [] (frame_size * 8) = 1 := by
    unfold capOf
    rw [hunit]
    exact Nat.div_self (by omega)
  refine ⟨hunit, hcap, ?_⟩
  rintro su ph maxEnd ⟨-, -, -, -, hmem⟩
  simp [endUnits] at hmem

/-- Witness for the amended C6 at `frame_size = 2` bytes, `N = 4` frames. -/
theorem C6_amended_witness :
    unitOf [] (2 * 8) = 2 * 8 ∧
    capOf [] (2 * 8) = 1 ∧
    ∀ su ph : Nat → Nat, ∀ maxEnd : Nat,
      ¬ FullModelSat [] [] (2 * 8) 4 su ph maxEnd :=
  C6_amended_empty_objects_stage1_fails 2 4 (by decide)

/-! ### Claim C1 -/

/-- C1 (code bug): the claim describes what `_validate_objects` would do — and
indeed, on an object whose `Start_Frame` violates invariant 2 the validator
errors naming the object and the rule (first conjunct).  But `pack()`
(FormatPacker.py, lines 432-435) only runs `_build_model(); _solve()`;
`_validate_objects` is never invoked anywhere.  The model built for the same
invalid input is satisfiable (second conjunct: the concrete assignment
`start_unit = 0` with `max_end = 1` satisfies every emitted constraint), so
the solve succeeds and `pack()` returns without raising any validation
error. -/
theorem C1_validation_never_runs :
    validateObjects 32 8000 [⟨"A", 8, 1, some 40, none⟩]
      = Except.error ("Invalid Start_Frame: Object A has invalid Start_Frame; " ++
          "must be between 0 and NUM_FRAMES-1.") ∧
    FullModelSat [⟨"A", 8, 1, some 40, none⟩] [] 8000 32
      (fun _ => 0) (fun _ => 0) 1 := by
  exact ⟨rfl, by decide⟩

/-! ### Claim C2 -/

/-- C2 counterexample: point `A` with `Start_Frame = 1 < num_frames = 2` and
`Period = 1` occurs (per the materializer) in only 1 frame, strictly fewer
than `num_frames div period = 2`; consequently `total_util = 16` overstates
the 8 bits actually placed. -/
theorem C2_counterexample :
    (⟨"A", 8, 1, some 1, none⟩ : PointObject).Start_Frame = some 1 ∧
    (1 : Nat) < 2 ∧
    ¬ (2 / (⟨"A", 8, 1, some 1, none⟩ : PointObject).Period
        ≤ occCount ⟨"A", 8, 1, some 1, none⟩ 0 2) ∧
    placedBits [⟨"A", 8, 1, some 1, none⟩] (fun _ => 0) 2
      < totalUtil [⟨"A", 8, 1, some 1, none⟩] 2 := by
  exact ⟨rfl, by decide, by decide, by decide⟩

/-- C2 (amended): for a point with `Start_Frame` set, the materializer's
occurrence count is at least `num_frames div period` provided
`start_frame < period` (rather than merely `start_frame < num_frames`, which
the counterexample refutes). -/
theorem C2_amended_count_lower_bound (o : PointObject) (sf N phase : Nat)
    (hsf : o.Start_Frame = some sf) (hp : 0 < o.Period) (hlt : sf < o.Period) :
    N / o.Period ≤ occCount o phase N := by
  have hpv : hasPhaseVars o = false := by simp [hasPhaseVars, hsf]
  rw [occCount_of_noPhase hpv phase N hp, hsf]
  simp only [Option.getD_some]
  by_cases hN : sf ≤ N
  · exact Nat.div_le_div_right (by omega)
  · have h2 : N / o.Period = 0 := Nat.div_eq_of_lt (by omega)
    exact h2 ▸ Nat.zero_le _

/-- Witness for the amended C2: `Start_Frame = 2 < Period = 4`, 32 frames. -/
theorem C2_amended_witness :
    (⟨"A", 8, 4, some 2, none⟩ : PointObject).Start_Frame = some 2 ∧
    0 < (⟨"A", 8, 4, some 2, none⟩ : PointObject).Period ∧
    2 < (⟨"A", 8, 4, some 2, none⟩ : PointObject).Period ∧
    32 / (⟨"A", 8, 4, some 2, none⟩ : PointObject).Period
      ≤ occCount ⟨"A", 8, 4, some 2, none⟩ 0 32 :=
  ⟨rfl, by decide, by decide,
    C2_amended_count_lower_bound ⟨"A", 8, 4, some 2, none⟩ 2 32 0 rfl
      (by decide) (by decide)⟩

/-! ### Claim C3 -/

/-- C3 counterexample: `num_frames = 5`, point `B` with `Period = 3` (no
`Start_Frame`), chosen phase `2` — an assignment satisfying every emitted
constraint (first conjunct) — occurs in exactly 1 frame, while the claim's
formula `1 + (num_frames - 1 - (start_frame or 0)) div period` yields 2. -/
theorem C3_counterexample :
    ModelSat [⟨"B", 8, 3, none, none⟩] [] 72 5 (fun _ => 0) (fun _ => 2) ∧
    occCount ⟨"B", 8, 3, none, none⟩ 2 5 = 1 ∧
    1 + (5 - 1 - ((⟨"B", 8, 3, none, none⟩ : PointObject).Start_Frame.getD 0)) /
        (⟨"B", 8, 3, none, none⟩ : PointObject).Period = 2 := by
  exact ⟨by decide, by decide, by decide⟩

/-- C3 (amended): the claimed frequency formula is exact for every point —
including any solver-chosen phase allowed by the emitted exactly-one
constraint — provided the period divides `num_frames` (the documented
expectation; the counterexample shows the formula fails for non-divisor
periods at high phases).  For points with a pinned `Start_Frame` (or
`Period = 1`) the divisibility hypothesis is not used by the `false` branch of
the proof, and the formula holds as claimed. -/
theorem C3_amended_frequency (o : PointObject) (phase N : Nat)
    (hp : 0 < o.Period) (hdvd : o.Period ∣ N)
    (hph : hasPhaseVars o = true → phase < o.Period) :
    occCount o phase N =
      if o.Start_Frame.getD 0 < N then
        1 + (N - 1 - o.Start_Frame.getD 0) / o.Period
      else 0 := by
  cases hpv : hasPhaseVars o with
  | false =>
      rw [occCount_of_noPhase hpv phase N hp]
      by_cases hlt : o.Start_Frame.getD 0 < N
      · rw [if_pos hlt]
        have h1 : N - o.Start_Frame.getD 0 + (o.Period - 1)
            = (N - 1 - o.Start_Frame.getD 0) + o.Period := by omega
        rw [h1, Nat.add_div_right _ hp]
        omega
      · rw [if_neg hlt]
        have h0 : N - o.Start_Frame.getD 0 = 0 := by omega
        rw [h0]
        exact Nat.div_eq_of_lt (by omega)
  | true =>
      have hs : phase < o.Period := hph hpv
      rw [occCount_of_phase hpv N hp hs]
      have hsf0 : o.Start_Frame.getD 0 = 0 := by
        have hnone : o.Start_Frame.isNone = true := by
          simp only [hasPhaseVars, Bool.and_eq_true] at hpv
          exact hpv.1
        rw [Option.isNone_iff_eq_none] at hnone
        rw [hnone]
        rfl
      rw [hsf0]
      rcases Nat.eq_zero_or_pos N with hN | hN
      · subst hN
        have hz : (0 - phase + (o.Period - 1)) / o.Period = 0 :=
          Nat.div_eq_of_lt (by omega)
        rw [hz, if_neg (by omega)]
      · obtain ⟨c, hc⟩ := hdvd
        have hc1 : 1 ≤ c := by
          rcases Nat.eq_zero_or_pos c with h0 | h1
          · subst h0; omega
          · exact h1
        obtain ⟨c', rfl⟩ : ∃ c', c = c' + 1 := ⟨c - 1, by omega⟩
        have hN' : N = o.Period * c' + o.Period := by
          rw [hc, Nat.mul_succ]
        have hpleN : o.Period ≤ N := by omega
        have e1 : N - phase + (o.Period - 1)
            = o.Period * (c' + 1) + (o.Period - 1 - phase) := by
          rw [Nat.mul_succ]; omega
        have hz1 : (o.Period - 1 - phase) / o.Period = 0 :=
          Nat.div_eq_of_lt (by omega)
        rw [e1, Nat.mul_add_div hp, hz1, if_pos (by omega : (0 : Nat) < N)]
        have e2 : N - 1 - 0 = o.Period * c' + (o.Period - 1) := by omega
        have hz2 : (o.Period - 1) / o.Period = 0 := Nat.div_eq_of_lt (by omega)
        rw [e2, Nat.mul_add_div hp, hz2]
        omega

/-- Witness for the amended C3: phase point with `Period = 4 ∣ 32`, phase 3. -/
theorem C3_amended_witness :
    0 < (⟨"B", 8, 4, none, none⟩ : PointObject).Period ∧
    (⟨"B", 8, 4, none, none⟩ : PointObject).Period ∣ 32 ∧
    occCount ⟨"B", 8, 4, none, none⟩ 3 32 =
      if (⟨"B", 8, 4, none, none⟩ : PointObject).Start_Frame.getD 0 < 32 then
        1 + (32 - 1 - (⟨"B", 8, 4, none, none⟩ : PointObject).Start_Frame.getD 0) /
          (⟨"B", 8, 4, none, none⟩ : PointObject).Period
      else 0 :=
  ⟨by decide, by decide,
    C3_amended_frequency ⟨"B", 8, 4, none, none⟩ 3 32 (by decide) (by decide)
      (fun _ => by decide)⟩

/-! ### The stable key sort -/

lemma insertByKey_perm {α : Type} (key : α → Nat) (x : α) (l : List α) :
    (insertByKey key x l).Perm (x :: l) := by
  induction l with
  | nil => simp [insertByKey]
  | cons y ys ih =>
      by_cases h : key y < key x
      · simp only [insertByKey, if_pos h]
        exact (ih.cons y).trans (List.Perm.swap x y ys)
      · simp only [insertByKey, if_neg h]
        exact List.Perm.refl _

lemma sortByKey_perm {α : Type} (key : α → Nat) (l : List α) :
    (sortByKey key l).Perm l := by
  induction l with
  | nil => simp [sortByKey]
  | cons x xs ih =>
      simp only [sortByKey]
      exact (insertByKey_perm key x (sortByKey key xs)).trans (ih.cons x)

lemma insertByKey_pairwise {α : Type} (key : α → Nat) (x : α) {l : List α}
    (hl : List.Pairwise (fun a b => key a ≤ key b) l) :
    List.Pairwise (fun a b => key a ≤ key b) (insertByKey key x l) := by
  induction l with
  | nil => simp [insertByKey]
  | cons y ys ih =>
      rcases List.pairwise_cons.mp hl with ⟨hy, hys⟩
      by_cases h : key y < key x
      · simp only [insertByKey, if_pos h]
        refine List.pairwise_cons.mpr ⟨?_, ih hys⟩
        intro a ha
        rcases List.mem_cons.mp ((insertByKey_perm key x ys).mem_iff.mp ha) with rfl | ha'
        · exact Nat.le_of_lt h
        · exact hy a ha'
      · simp only [insertByKey, if_neg h]
        refine List.pairwise_cons.mpr ⟨?_, hl⟩
        intro a ha
        rcases List.mem_cons.mp ha with rfl | ha'
        · exact Nat.le_of_not_lt h
        · exact Nat.le_trans (Nat.le_of_not_lt h) (hy a ha')

lemma sortByKey_pairwise {α : Type} (key : α → Nat) (l : List α) :
    List.Pairwise (fun a b => key a ≤ key b) (sortByKey key l) := by
  induction l with
  | nil => simp [sortByKey]
  | cons x xs ih => exact insertByKey_pairwise key x ih

/-! ### Claim C4 -/

/-- C4 counterexample: two pinned points — `A` at byte offset 2 first appearing
in frame 0, `B` at offset 0 first appearing in frame 1.  The pins force the
unique satisfying assignment (first conjunct), so every successful pack yields
it.  The produced row order is `[B, A]` (sorted by start bit), while `A` has
the earlier first appearing frame — so the claimed (first frame, start bit)
lexicographic ordering fails. -/
theorem C4_counterexample :
    ModelSat [⟨"A", 8, 2, some 0, some 16⟩, ⟨"B", 8, 2, some 1, some 0⟩] [] 128 4
      (fun i => if i = 0 then 2 else 0) (fun _ => 0) ∧
    objectOrder (frameSummary [⟨"A", 8, 2, some 0, some 16⟩, ⟨"B", 8, 2, some 1, some 0⟩]
        (fun i => if i = 0 then 2 else 0) (fun _ => 0)
        (unitOf [⟨"A", 8, 2, some 0, some 16⟩, ⟨"B", 8, 2, some 1, some 0⟩] 128) 4)
      = ["B", "A"] ∧
    firstFrameOf (frameSummary [⟨"A", 8, 2, some 0, some 16⟩, ⟨"B", 8, 2, some 1, some 0⟩]
        (fun i => if i = 0 then 2 else 0) (fun _ => 0)
        (unitOf [⟨"A", 8, 2, some 0, some 16⟩, ⟨"B", 8, 2, some 1, some 0⟩] 128) 4) "A" = 0 ∧
    firstFrameOf (frameSummary [⟨"A", 8, 2, some 0, some 16⟩, ⟨"B", 8, 2, some 1, some 0⟩]
        (fun i => if i = 0 then 2 else 0) (fun _ => 0)
        (unitOf [⟨"A", 8, 2, some 0, some 16⟩, ⟨"B", 8, 2, some 1, some 0⟩] 128) 4) "B" = 1 ∧
    ¬ C4ClaimHolds (frameSummary [⟨"A", 8, 2, some 0, some 16⟩, ⟨"B", 8, 2, some 1, some 0⟩]
        (fun i => if i = 0 then 2 else 0) (fun _ => 0)
        (unitOf [⟨"A", 8, 2, some 0, some 16⟩, ⟨"B", 8, 2, some 1, some 0⟩] 128) 4) := by
  exact ⟨by decide, by decide, by decide, by decide, by decide⟩

/-- C4 (amended): the FrameSummary rows are ordered by non-decreasing recorded
start bit (the minimum start bit over all frames of occurrence — which is
frame-independent, since `start_bit = value(start_unit) * UNIT` does not depend
on the frame); ties keep first-appearance insertion order because the sort is
stable.  The rows are *not* primarily ordered by first appearing frame. -/
theorem C4_amended_rows_sorted_by_start_bit (objs : List PointObject)
    (su ph : Nat → Nat) (unit N : Nat) :
    List.Pairwise (fun a b => a.2 ≤ b.2)
      (objectOrderRows (frameSummary objs su ph unit N)) :=
  sortByKey_pairwise (fun e => e.2) (firstBits (frameSummary objs su ph unit N))

/-! ### Entry-list facts for the FrameOrder table -/

lemma mem_rawEntries {objs : List PointObject} {su ph : Nat → Nat} {unit f : Nat}
    {i : Nat} (hi : i < objs.length)
    (hocc : inFrame (objAt objs i) (ph i) f = true) :
    ((objAt objs i).Name, su i * unit) ∈ rawEntries objs su ph unit f := by
  have hlen : i < objs.enum.length := by simpa using hi
  have hget : objs.enum[i] = (i, objs[i]) := by
    simp [List.enum]
  have hmem : (i, objs[i]) ∈ objs.enum := hget ▸ List.getElem_mem hlen
  have hmemf : (i, objs[i]) ∈ objs.enum.filter (fun q => inFrame q.2 (ph q.1) f) := by
    refine List.mem_filter.mpr ⟨hmem, ?_⟩
    rw [objAt_eq_getElem hi] at hocc
    simpa using hocc
  have := List.mem_map_of_mem (fun q : Nat × PointObject => (q.2.Name, su q.1 * unit)) hmemf
  rw [objAt_eq_getElem hi]
  exact this

lemma rawEntries_names_nodup {objs : List PointObject}
    (hnodup : (objs.map PointObject.Name).Nodup) (su ph : Nat → Nat) (unit f : Nat) :
    ((rawEntries objs su ph unit f).map Prod.fst).Nodup := by
  have h1 : (rawEntries objs su ph unit f).map Prod.fst
      = (objs.enum.filter (fun q => inFrame q.2 (ph q.1) f)).map
          (fun q => q.2.Name) := by
    unfold rawEntries
    rw [List.map_map]
    rfl
  have h2 : ((objs.enum.filter (fun q => inFrame q.2 (ph q.1) f)).map
        (fun q : Nat × PointObject => q.2.Name)).Sublist
      (objs.enum.map (fun q : Nat × PointObject => q.2.Name)) :=
    (List.filter_sublist _).map _
  have h3 : objs.enum.map (fun q : Nat × PointObject => q.2.Name)
      = objs.map PointObject.Name := by
    have : (fun q : Nat × PointObject => q.2.Name)
        = PointObject.Name ∘ Prod.snd := rfl
    rw [this, ← List.map_map]
    congr 1
    simp
  rw [h1]
  rw [h3] at h2
  exact hnodup.sublist h2

/-- In a start-bit sorted entry list with pairwise distinct names, an entry with
a strictly smaller start bit sits strictly earlier (by name position). -/
lemma posOf_lt_of_key_lt {l : List (String × Nat)}
    (hs : List.Pairwise (fun a b : String × Nat => a.2 ≤ b.2) l)
    (hn : (l.map Prod.fst).Nodup)
    {a b : String × Nat} (ha : a ∈ l) (hb : b ∈ l) (hab : a.2 < b.2) :
    posOf a.1 (l.map Prod.fst) < posOf b.1 (l.map Prod.fst) := by
  induction l with
  | nil => cases ha
  | cons c t ih =>
      rcases List.pairwise_cons.mp hs with ⟨hc, ht⟩
      have hn' : (c.1 :: t.map Prod.fst).Nodup := by simpa using hn
      rcases List.nodup_cons.mp hn' with ⟨hcn, htn⟩
      by_cases hca : c.1 = a.1
      · have hb_t : b ∈ t := by
          rcases List.mem_cons.mp hb with rfl | h
          · exfalso
            rcases List.mem_cons.mp ha with rfl | ha'
            · omega
            · exact absurd (hc a ha') (by omega)
          · exact h
        have hbne : c.1 ≠ b.1 := by
          intro he
          exact hcn (he ▸ List.mem_map_of_mem Prod.fst hb_t)
        simp only [List.map_cons, posOf, if_pos hca, if_neg hbne]
        omega
      · have ha_t : a ∈ t := by
          rcases List.mem_cons.mp ha with rfl | h
          · exact absurd rfl hca
          · exact h
        by_cases hcb : c.1 = b.1
        · exfalso
          have hbc : b = c := by
            rcases List.mem_cons.mp hb with rfl | h
            · rfl
            · exact absurd (hcb ▸ List.mem_map_of_mem Prod.fst h) hcn
          subst hbc
          exact absurd (hc a ha_t) (by omega)
        · have hb_t : b ∈ t := by
            rcases List.mem_cons.mp hb with rfl | h
            · exact absurd rfl hcb
            · exact h
          have hrec := ih ht htn ha_t hb_t
          simp only [List.map_cons, posOf, if_neg hca, if_neg hcb]
          omega

/-! ### Claim C7 -/

/-- C7: group cohesion.  For a group span `(k, m)` of the packer's object list
(with the propagated shared `Period`/`Start_Frame` — see
`C5_amended_blanking_happens_in_packer` and `groupInit_member` for the
propagation — positive member sizes, and the globally unique names the spec
expects of callers), any solver assignment satisfying the emitted constraints
gives: (a) all members occur in exactly the same frames; (b) the start bits
chain as `s, s + size_0, s + size_0 + size_1, …` (each member's start bit is
the previous member's start bit plus its size, in bits); (c) in every frame of
occurrence the FrameOrder column lists consecutive members in group order. -/
theorem C7_group_cohesion (objs : List PointObject) (groups : List (Nat × Nat))
    (fsb N : Nat) (su ph : Nat → Nat)
    (hsat : ModelSat objs groups fsb N su ph)
    (k m : Nat) (hg : (k, m) ∈ groups) (hspan : k + m ≤ objs.length)
    (P : Nat) (SF : Option Nat)
    (hattr : ∀ j < m, (objAt objs (k + j)).Period = P ∧
      (objAt objs (k + j)).Start_Frame = SF)
    (hpos : ∀ j < m, 0 < (objAt objs (k + j)).Size)
    (hnodup : (objs.map PointObject.Name).Nodup) :
    (∀ i < m, ∀ j < m, ∀ f : Nat,
        inFrame (objAt objs (k + i)) (ph (k + i)) f
          = inFrame (objAt objs (k + j)) (ph (k + j)) f) ∧
    (∀ j, j + 1 < m →
        su (k + j + 1) * unitOf objs fsb
          = su (k + j) * unitOf objs fsb + (objAt objs (k + j)).Size) ∧
    (∀ f : Nat, ∀ j, j + 1 < m →
        inFrame (objAt objs k) (ph k) f = true →
        posOf (objAt objs (k + j)).Name
            (frameOrderNames objs su ph (unitOf objs fsb) f)
          < posOf (objAt objs (k + j + 1)).Name
            (frameOrderNames objs su ph (unitOf objs fsb) f)) := by
  obtain ⟨hdom, hpin, hphase, hgrp, hnov⟩ := hsat
  have hhpv : ∀ j < m, hasPhaseVars (objAt objs (k + j))
      = (SF.isNone && decide (1 < P)) := by
    intro j hj
    unfold hasPhaseVars
    rw [(hattr j hj).1, (hattr j hj).2]
  have hoccBase : ∀ j < m, ∀ f : Nat,
      inFrame (objAt objs (k + j)) (ph (k + j)) f
        = inFrame (objAt objs k) (ph k) f := by
    cases hb : SF.isNone && decide (1 < P) with
    | false =>
        intro j hj f
        have e1 : ∀ j', j' < m → inFrame (objAt objs (k + j')) (ph (k + j')) f
            = (decide (SF.getD 0 ≤ f) && ((f - SF.getD 0) % P == 0)) := by
          intro j' hj'
          unfold inFrame
          rw [hhpv j' hj', hb, (hattr j' hj').1, (hattr j' hj').2]
          simp
        have e0 := e1 0 (by omega)
        simp only [Nat.add_zero] at e0
        rw [e1 j hj, e0]
    | true =>
        have hpheq : ∀ j, j < m → ph (k + j) = ph k := by
          intro j
          induction j with
          | zero => intro _; rfl
          | succ n ihn =>
              intro hj
              have hn : n < m := by omega
              have hlt : n < m - 1 := by omega
              have hc := hgrp (k, m) hg n hlt
              have h1 : hasPhaseVars (objAt objs (k + n)) = true := by
                rw [hhpv n hn]; exact hb
              have h2 : hasPhaseVars (objAt objs (k + n + 1)) = true := by
                have h2' := hhpv (n + 1) hj
                rw [show k + (n + 1) = k + n + 1 from rfl] at h2'
                rw [h2']; exact hb
              exact (hc.1 ⟨h1, h2⟩).trans (ihn hn)
        intro j hj f
        have e1 : ∀ j', j' < m → inFrame (objAt objs (k + j')) (ph (k + j')) f
            = (f % P == ph k) := by
          intro j' hj'
          unfold inFrame
          rw [hhpv j' hj', hb, (hattr j' hj').1, hpheq j' hj']
          simp
        have e0 := e1 0 (by omega)
        simp only [Nat.add_zero] at e0
        rw [e1 j hj, e0]
  have hb2 : ∀ j, j + 1 < m →
      su (k + j + 1) * unitOf objs fsb
        = su (k + j) * unitOf objs fsb + (objAt objs (k + j)).Size := by
    intro j hj
    have hlt : j < m - 1 := by omega
    have hc := (hgrp (k, m) hg j hlt).2
    have hmem : objAt objs (k + j) ∈ objs := objAt_mem (by omega)
    have hdvd := unitOf_dvd_size hmem fsb
    rw [hc, Nat.add_mul, Nat.div_mul_cancel hdvd]
  refine ⟨fun i hi j hj f => (hoccBase i hi f).trans (hoccBase j hj f).symm, hb2, ?_⟩
  intro f j hj hocc
  have hj1 : j < m := by omega
  have hocc1 : inFrame (objAt objs (k + j)) (ph (k + j)) f = true := by
    rw [hoccBase j hj1 f]; exact hocc
  have hocc2 : inFrame (objAt objs (k + j + 1)) (ph (k + j + 1)) f = true := by
    have h2' := hoccBase (j + 1) hj f
    rw [show k + (j + 1) = k + j + 1 from rfl] at h2'
    rw [h2']; exact hocc
  have hm1 : ((objAt objs (k + j)).Name, su (k + j) * unitOf objs fsb)
      ∈ rawEntries objs su ph (unitOf objs fsb) f :=
    mem_rawEntries (by omega) hocc1
  have hm2 : ((objAt objs (k + j + 1)).Name, su (k + j + 1) * unitOf objs fsb)
      ∈ rawEntries objs su ph (unitOf objs fsb) f :=
    mem_rawEntries (by omega) hocc2
  have hperm := sortByKey_perm (fun e : String × Nat => e.2)
    (rawEntries objs su ph (unitOf objs fsb) f)
  have hs1 : ((objAt objs (k + j)).Name, su (k + j) * unitOf objs fsb)
      ∈ entriesFor objs su ph (unitOf objs fsb) f := by
    unfold entriesFor
    exact hperm.mem_iff.mpr hm1
  have hs2 : ((objAt objs (k + j + 1)).Name, su (k + j + 1) * unitOf objs fsb)
      ∈ entriesFor objs su ph (unitOf objs fsb) f := by
    unfold entriesFor
    exact hperm.mem_iff.mpr hm2
  have hkey : su (k + j) * unitOf objs fsb < su (k + j + 1) * unitOf objs fsb := by
    have hch := hb2 j hj
    have hszpos := hpos j hj1
    omega
  have hnodup3 : ((entriesFor objs su ph (unitOf objs fsb) f).map Prod.fst).Nodup := by
    unfold entriesFor
    exact (hperm.map Prod.fst).nodup_iff.mpr
      (rawEntries_names_nodup hnodup su ph (unitOf objs fsb) f)
  have hsorted := sortByKey_pairwise (fun e : String × Nat => e.2)
    (rawEntries objs su ph (unitOf objs fsb) f)
  have hfin := posOf_lt_of_key_lt hsorted hnodup3 hs1 hs2 hkey
  exact hfin

/-- Witness for C7: a two-member group `G1, G2` (period 2, no start frame),
chosen phase 1, contiguous start units `0, 1`, `UNIT = 8`. -/
theorem C7_witness :
    (∀ i < 2, ∀ j < 2, ∀ f : Nat,
        inFrame (objAt [⟨"G1", 8, 2, none, none⟩, ⟨"G2", 8, 2, none, none⟩] (0 + i))
            ((fun _ : Nat => 1) (0 + i)) f
          = inFrame (objAt [⟨"G1", 8, 2, none, none⟩, ⟨"G2", 8, 2, none, none⟩] (0 + j))
            ((fun _ : Nat => 1) (0 + j)) f) ∧
    (∀ j, j + 1 < 2 →
        (fun i : Nat => if i = 0 then 0 else 1) (0 + j + 1)
            * unitOf [⟨"G1", 8, 2, none, none⟩, ⟨"G2", 8, 2, none, none⟩] 32
          = (fun i : Nat => if i = 0 then 0 else 1) (0 + j)
              * unitOf [⟨"G1", 8, 2, none, none⟩, ⟨"G2", 8, 2, none, none⟩] 32
            + (objAt [⟨"G1", 8, 2, none, none⟩, ⟨"G2", 8, 2, none, none⟩] (0 + j)).Size) ∧
    (∀ f : Nat, ∀ j, j + 1 < 2 →
        inFrame (objAt [⟨"G1", 8, 2, none, none⟩, ⟨"G2", 8, 2, none, none⟩] 0)
            ((fun _ : Nat => 1) 0) f = true →
        posOf (objAt [⟨"G1", 8, 2, none, none⟩, ⟨"G2", 8, 2, none, none⟩] (0 + j)).Name
            (frameOrderNames [⟨"G1", 8, 2, none, none⟩, ⟨"G2", 8, 2, none, none⟩]
              (fun i : Nat => if i = 0 then 0 else 1) (fun _ : Nat => 1)
              (unitOf [⟨"G1", 8, 2, none, none⟩, ⟨"G2", 8, 2, none, none⟩] 32) f)
          < posOf (objAt [⟨"G1", 8, 2, none, none⟩, ⟨"G2", 8, 2, none, none⟩]
                (0 + j + 1)).Name
            (frameOrderNames [⟨"G1", 8, 2, none, none⟩, ⟨"G2", 8, 2, none, none⟩]
              (fun i : Nat => if i = 0 then 0 else 1) (fun _ : Nat => 1)
              (unitOf [⟨"G1", 8, 2, none, none⟩, ⟨"G2", 8, 2, none, none⟩] 32) f)) :=
  C7_group_cohesion [⟨"G1", 8, 2, none, none⟩, ⟨"G2", 8, 2, none, none⟩] [(0, 2)]
    32 4 (fun i => if i = 0 then 0 else 1) (fun _ => 1) (by decide) 0 2 (by decide)
    (by decide) 2 none (by decide) (by decide) (by decide)
